import Mathlib

/-!
Shallow embedding of the phone recommendation engine in `src/recommender.py`
(class `PhoneRecommender`), together with proofs about its two query paths
(`recommend_by_text`, `recommend_by_specs`), its feature preparation
(`prepare_features`) and its persistence (`save_model` / `load_model`).

Modelling conventions:
* Machine floats are modelled as `ℚ`.  The catalog produced by
  `prepare_data.py` fills every numeric column with a numeric default
  (price `0`, scores and rating `4.0`), so the numeric fields of a catalog
  row are plain rationals; the `pd.to_numeric(errors=coerce).fillna(4.0)`
  coercion step of `prepare_features` is modelled on raw `Option ℚ` cells
  (`none` = missing / non-numeric, i.e. NaN after coercion).
* The sklearn `TfidfVectorizer` + `cosine_similarity` pipeline is an external
  library; it is modelled as an abstract fitted object (`TfidfModel`) whose
  `simFn` maps a query string to the vector of cosine similarities of the
  query against the fitted corpus, one entry per catalog row.  No claim in
  scope constrains the numeric similarity values themselves.
* `np.argsort(similarities)[::-1]` (line 75) is modelled as a stable
  ascending sort by the key (ties broken by ascending original position —
  NumPy's default sort is a stable insertion sort on the small arrays
  involved here), then a literal reversal of the entire list
  (`pandasSortDesc`): so equal similarities come out in reverse position
  order.  `df.sort_values(by, ascending=False)` (line 109) goes through
  pandas `nargsort`, which reverses the values and index arrays BEFORE the
  stable ascending argsort and reverses the resulting indexer AFTER; the two
  reversals cancel on ties, so the net effect is the stable descending sort:
  positions ordered by key descending, ties by ascending original position.
  `pandasSortValuesDesc` is that net order, written directly.
* pandas `Series.str.contains(pat, na=False)` (line 103) compiles `pat` as a
  regular expression (`regex=True` is the pandas default).  We embed the
  fragment of Python `re` syntax actually needed: literal characters, the
  `.` wildcard, and `(`/`)` grouping (which for this fragment only checks
  balance).  Any other `re` metacharacter is outside the modelled subset and
  is mapped to a parse error; every concrete pattern evaluated by a theorem
  below stays inside the subset, where the model agrees with Python `re`.
* Python `int(x)` on a float truncates toward zero (`pyInt`); Python
  truthiness of an integer argument (`if budget:`) is `b ≠ 0`.
-/

instance {e a : Type} [DecidableEq e] [DecidableEq a] : DecidableEq (Except e a) := fun x y =>
  match x, y with
  | Except.ok v, Except.ok w =>
    if h : v = w then Decidable.isTrue (by rw [h]) else Decidable.isFalse (by simp [h])
  | Except.error v, Except.error w =>
    if h : v = w then Decidable.isTrue (by rw [h]) else Decidable.isFalse (by simp [h])
  | Except.ok _, Except.error _ => Decidable.isFalse (by simp)
  | Except.error _, Except.ok _ => Decidable.isFalse (by simp)

/-- Python `str.lower()` / pandas `Series.str.lower()`: character-wise
lowercasing (ASCII-faithful). -/
def pyLower (s : String) : String := String.mk (s.data.map Char.toLower)

/-- One row of the catalog table `self.df` as produced by `prepare_data.py` /
`load_data`.  Text columns that the code guards with `.fillna` or `na=False`
are `Option String` (`none` = missing/NaN); numeric columns are rationals
(always present, see the module docstring). -/
structure Phone where
  model : String
  brand : Option String
  price : ℚ
  processor : Option String
  best_for : Option String
  reason : Option String
  gaming : ℚ
  camera : ℚ
  battery_score : ℚ
  performance : ℚ
  rating : ℚ
deriving DecidableEq

/-- The `self.df` DataFrame: the catalog rows plus the derived
`combo_features` column, which is absent until `prepare_features` assigns it
(line 34). -/
structure DataFrame where
  rows : List Phone
  combo_features : Option (List String)
deriving DecidableEq

/-- The fitted text index: `tfidf_vectorizer` + `tfidf_matrix` as set by
`prepare_features` (lines 42–43), abstracted to the one observable used by
`recommend_by_text`: the map from a query string to the cosine-similarity
vector of the query against the fitted corpus (lines 69–72). -/
structure TfidfModel where
  simFn : String → List ℚ

/-- The mutable state of a `PhoneRecommender` instance (constructor,
lines 19–23): all fields start as `None`. -/
structure PhoneRecommender where
  df : Option DataFrame
  tfidf_matrix : Option TfidfModel
  feature_matrix : Option (List (List ℚ))

/-- A fresh `PhoneRecommender()` (lines 19–23). -/
def PhoneRecommender.init : PhoneRecommender :=
  { df := none, tfidf_matrix := none, feature_matrix := none }

/-- `load_data` (lines 25–29): installs the freshly read CSV as `self.df`
(the CSV has no `combo_features` column). -/
def load_data (r : PhoneRecommender) (rows : List Phone) : PhoneRecommender :=
  { r with df := some { rows := rows, combo_features := none } }

/-- Python `int(x)` applied to a (finite) float: truncation toward zero. -/
def pyInt (q : ℚ) : ℤ := if 0 ≤ q then ⌊q⌋ else ⌈q⌉

/-- One entry of the result list of `recommend_by_text` (lines 81–89). -/
structure TextResult where
  model : String
  brand : Option String
  price : ℤ
  rating : ℚ
  processor : Option String
  best_for : Option String
  similarity_score : ℚ
deriving DecidableEq

/-- One entry of the result list of `recommend_by_specs` (lines 113–121). -/
structure SpecResult where
  model : String
  brand : Option String
  price : ℤ
  rating : ℚ
  processor : Option String
  best_for : Option String
  reason : Option String
deriving DecidableEq

/-! ### The regular-expression fragment behind `Series.str.contains` -/

/-- One atom of the modelled `re` fragment: a literal character or the `.`
wildcard.  Grouping parentheses only check balance for this fragment, so a
parsed pattern is a flat list of atoms. -/
inductive Atom where
  | lit (c : Char)
  | dot
deriving DecidableEq

/-- Characters that are metacharacters for Python `re`. -/
def reMeta : List Char :=
  ['.', '^', '$', '*', '+', '?', '{', '}', '[', ']', '\\', '|', '(', ')']

/-- Parser worker over the pattern characters, tracking the open-parenthesis
depth.  Mirrors `re.compile`: an unmatched `)` or a missing `)` is an error;
a metacharacter outside the modelled fragment is mapped to an error (see the
module docstring). -/
def parseGo : List Char → Nat → List Atom → Except String (List Atom)
  | [], 0, acc => Except.ok acc.reverse
  | [], _ + 1, _ => Except.error "re.error: missing ), unterminated subpattern"
  | c :: rest, d, acc =>
    if c = '(' then parseGo rest (d + 1) acc
    else if c = ')' then
      match d with
      | 0 => Except.error "re.error: unbalanced parenthesis"
      | d' + 1 => parseGo rest d' acc
    else if c = '.' then parseGo rest d (Atom.dot :: acc)
    else if c ∈ reMeta then Except.error "pattern outside the modelled re fragment"
    else parseGo rest d (Atom.lit c :: acc)

/-- `re.compile(pat)` for the modelled fragment. -/
def parsePattern (pat : String) : Except String (List Atom) :=
  parseGo pat.toList 0 []

/-- Does the atom match one character?  Python `.` matches any character
except a newline (no DOTALL flag is passed). -/
def atomMatches : Atom → Char → Bool
  | Atom.lit c, x => x = c
  | Atom.dot, x => x ≠ '\n'

/-- Does the atom list match a prefix of the character list? -/
def matchesFrom : List Atom → List Char → Bool
  | [], _ => true
  | _ :: _, [] => false
  | a :: as, c :: cs => atomMatches a c && matchesFrom as cs

/-- `re.search(pat, s) is not None`: the pattern matches at some position. -/
def regexSearch (as : List Atom) (s : String) : Bool :=
  (List.range (s.toList.length + 1)).any fun i => matchesFrom as (s.toList.drop i)

/-- Literal substring containment, i.e. the regex semantics of a pattern with
no metacharacters: `sub` occurs contiguously in `s`. -/
def literalContains (s sub : String) : Bool :=
  regexSearch (sub.toList.map Atom.lit) s

/-! ### The NumPy/pandas descending sort -/

/-- Ascending comparison used by the stable ascending argsort underlying both
`np.argsort` and pandas `sort_values`: by key value, ties by original
position (first component). -/
def pandasLe {α : Type} (key : α → ℚ) (x y : ℕ × α) : Prop :=
  key x.2 < key y.2 ∨ (key x.2 = key y.2 ∧ x.1 ≤ y.1)

instance {α : Type} (key : α → ℚ) : DecidableRel (pandasLe key) := fun x y => by
  unfold pandasLe; infer_instance

instance {α : Type} (key : α → ℚ) : IsTotal (ℕ × α) (pandasLe key) where
  total x y := by
    unfold pandasLe
    rcases lt_trichotomy (key x.2) (key y.2) with h | h | h
    · exact Or.inl (Or.inl h)
    · rcases Nat.le_total x.1 y.1 with h1 | h1
      · exact Or.inl (Or.inr ⟨h, h1⟩)
      · exact Or.inr (Or.inr ⟨h.symm, h1⟩)
    · exact Or.inr (Or.inl h)

instance {α : Type} (key : α → ℚ) : IsTrans (ℕ × α) (pandasLe key) where
  trans x y z hxy hyz := by
    unfold pandasLe at *
    rcases hxy with h1 | ⟨h1, h1i⟩
    · rcases hyz with h2 | ⟨h2, _⟩
      · exact Or.inl (h1.trans h2)
      · exact Or.inl (h2 ▸ h1)
    · rcases hyz with h2 | ⟨h2, h2i⟩
      · exact Or.inl (h1 ▸ h2)
      · exact Or.inr ⟨h1.trans h2, h1i.trans h2i⟩

/-- Descending order of position-tagged rows as `np.argsort(...)[::-1]`
produces it (text path only): stable ascending sort by the key (ties by
original position), then reverse the whole list. -/
def pandasSortDesc {α : Type} (key : α → ℚ) (rows : List (ℕ × α)) : List (ℕ × α) :=
  (List.insertionSort (pandasLe key) rows).reverse

/-- `np.argsort(sims)[::-1]` (line 75): positions of `sims` ordered by
descending value, ties by descending position. -/
def argsortDesc (sims : List ℚ) : List ℕ :=
  (pandasSortDesc (fun v => v) sims.enum).map Prod.fst

/-- The order realised by pandas `sort_values(by, ascending=False)`:
`nargsort` reverses the values and index arrays, takes a stable ascending
argsort, and reverses the final indexer, which nets out to: key descending,
ties by ascending original position. -/
def sortValuesLe {α : Type} (key : α → ℚ) (x y : ℕ × α) : Prop :=
  key y.2 < key x.2 ∨ (key x.2 = key y.2 ∧ x.1 ≤ y.1)

instance {α : Type} (key : α → ℚ) : DecidableRel (sortValuesLe key) := fun x y => by
  unfold sortValuesLe; infer_instance

instance {α : Type} (key : α → ℚ) : IsTotal (ℕ × α) (sortValuesLe key) where
  total x y := by
    unfold sortValuesLe
    rcases lt_trichotomy (key x.2) (key y.2) with h | h | h
    · exact Or.inr (Or.inl h)
    · rcases Nat.le_total x.1 y.1 with h1 | h1
      · exact Or.inl (Or.inr ⟨h, h1⟩)
      · exact Or.inr (Or.inr ⟨h.symm, h1⟩)
    · exact Or.inl (Or.inl h)

instance {α : Type} (key : α → ℚ) : IsTrans (ℕ × α) (sortValuesLe key) where
  trans x y z hxy hyz := by
    unfold sortValuesLe at *
    rcases hxy with h1 | ⟨h1, h1i⟩
    · rcases hyz with h2 | ⟨h2, _⟩
      · exact Or.inl (h2.trans h1)
      · exact Or.inl (h2 ▸ h1)
    · rcases hyz with h2 | ⟨h2, h2i⟩
      · exact Or.inl (h1 ▸ h2)
      · exact Or.inr ⟨h1.trans h2, h1i.trans h2i⟩

/-- `df.sort_values(col, ascending=False)` (line 109) on position-tagged
rows: the stable descending sort — key descending, ties keep original
catalog order — which is exactly what pandas `nargsort`'s double reversal
around its stable ascending argsort produces. -/
def pandasSortValuesDesc {α : Type} (key : α → ℚ) (rows : List (ℕ × α)) :
    List (ℕ × α) :=
  List.insertionSort (sortValuesLe key) rows

/-! ### Feature preparation (`prepare_features`, lines 31–62) -/

/-- The `combo_features` text of one row (lines 34–39): brand, best_for,
processor, reason with missing values replaced by the empty string,
single-space separated. -/
def comboText (p : Phone) : String :=
  (p.brand.getD "") ++ " " ++ (p.best_for.getD "") ++ " " ++
    (p.processor.getD "") ++ " " ++ (p.reason.getD "")

/-- `pd.to_numeric(col, errors=coerce).fillna(4.0)` (line 51) on one column
of raw cells: a missing/non-numeric cell becomes the default `4.0`. -/
def toNumericFill (col : List (Option ℚ)) : List ℚ :=
  col.map fun c => c.getD 4

/-- `col.min()` (line 55); the empty catalog yields a placeholder `0`
(pandas would yield NaN, and the guard below would skip scaling as well). -/
def colMin : List ℚ → ℚ
  | [] => 0
  | h :: t => t.foldl min h

/-- `col.max()` (line 56). -/
def colMax : List ℚ → ℚ
  | [] => 0
  | h :: t => t.foldl max h

/-- Min-max scaling of one numeric column (lines 54–58): affine scaling
`(x - min) / (max - min)` only when `max - min > 0`, otherwise the column is
left untouched. -/
def normalizeCol (v : List ℚ) : List ℚ :=
  if 0 < colMax v - colMin v then
    v.map fun x => (x - colMin v) / (colMax v - colMin v)
  else v

/-- The six numeric columns of the catalog, as raw cells, in the order of
`numeric_features` (line 46). -/
def numericColumns (rows : List Phone) : List (List (Option ℚ)) :=
  [rows.map (fun p => some p.price),
   rows.map (fun p => some p.gaming),
   rows.map (fun p => some p.camera),
   rows.map (fun p => some p.battery_score),
   rows.map (fun p => some p.performance),
   rows.map (fun p => some p.rating)]

/-- Lines 49–58: coerce each column to numeric with default `4.0`, then
min-max normalize it. -/
def prepareNumeric (cols : List (List (Option ℚ))) : List (List ℚ) :=
  cols.map fun c => normalizeCol (toNumericFill c)

/-- `prepare_features` (lines 31–62), parameterized by the external sklearn
fitting pipeline `fit` (TfidfVectorizer(max_features=100, lowercase=True)
fitted on the combo texts, line 42–43).  On a `None` DataFrame Python raises
an `AttributeError`; otherwise the method assigns the `combo_features`
column on `self.df`, the fitted text index, and the normalized numeric
feature matrix (row-major, line 60). -/
def prepare_features (fit : List String → TfidfModel) (r : PhoneRecommender) :
    Except String PhoneRecommender :=
  match r.df with
  | none => Except.error "AttributeError: NoneType object has no attribute"
  | some d =>
    let combo := d.rows.map comboText
    Except.ok
      { df := some { rows := d.rows, combo_features := some combo },
        tfidf_matrix := some (fit combo),
        feature_matrix := some (prepareNumeric (numericColumns d.rows)).transpose }

/-! ### `recommend_by_text` (lines 63–91) -/

instance : Inhabited Phone :=
  ⟨{ model := "", brand := none, price := 0, processor := none, best_for := none,
     reason := none, gaming := 0, camera := 0, battery_score := 0,
     performance := 0, rating := 0 }⟩

/-- One result record of `recommend_by_text` (lines 81–89). -/
def buildTextRecord (p : Phone) (score : ℚ) : TextResult :=
  { model := p.model, brand := p.brand, price := pyInt p.price,
    rating := p.rating, processor := p.processor, best_for := p.best_for,
    similarity_score := score }

/-- `recommend_by_text(query, top_k)` (lines 63–91): raises unless the
TF-IDF matrix has been fit; otherwise ranks all rows by similarity
descending (`np.argsort(...)[::-1]`), truncates to `top_k`, and keeps only
rows with similarity strictly greater than `0`. -/
def recommend_by_text (r : PhoneRecommender) (query : String) (top_k : ℕ) :
    Except String (List TextResult) :=
  match r.tfidf_matrix with
  | none => Except.error "Model not trained! Call prepare_features() first"
  | some m =>
    match r.df with
    | none => Except.error "AttributeError: NoneType object has no attribute"
    | some d =>
      let sims := m.simFn query
      let top := (argsortDesc sims).take top_k
      Except.ok ((top.filter fun i => 0 < sims.getD i 0).map fun i =>
        buildTextRecord (d.rows.getD i default) (sims.getD i 0))

/-! ### `recommend_by_specs` (lines 93–123) -/

/-- The budget filter (lines 97–99): Python `if budget:` is false for `None`
and for `0`; otherwise rows with `price <= budget` are retained. -/
def budgetFilter (budget : Option ℤ) (rows : List (ℕ × Phone)) : List (ℕ × Phone) :=
  match budget with
  | none => rows
  | some b =>
    if b = 0 then rows
    else rows.filter fun ip => decide (ip.2.price ≤ (b : ℚ))

/-- The use-case filter (lines 101–103): skipped when `use_case` is falsy
(absent or the empty string) or equals `"overall"` case-insensitively;
otherwise pandas `str.contains` compiles `use_case` as a regex (raising on a
malformed pattern) and retains rows whose lowercased `best_for` matches it
somewhere; a missing `best_for` yields `False` (`na=False`). -/
def useCaseFilter (uc : Option String) (rows : List (ℕ × Phone)) :
    Except String (List (ℕ × Phone)) :=
  match uc with
  | none => Except.ok rows
  | some u =>
    if u = "" then Except.ok rows
    else if pyLower u = "overall" then Except.ok rows
    else
      match parsePattern u with
      | Except.error e => Except.error e
      | Except.ok pat =>
        Except.ok (rows.filter fun ip =>
          match ip.2.best_for with
          | some s => regexSearch pat (pyLower s)
          | none => false)

/-- One result record of `recommend_by_specs` (lines 113–121). -/
def buildSpecRecord (p : Phone) : SpecResult :=
  { model := p.model, brand := p.brand, price := pyInt p.price,
    rating := p.rating, processor := p.processor, best_for := p.best_for,
    reason := p.reason }

/-- `recommend_by_specs(budget, use_case, top_k)` (lines 93–123): copies
`self.df` (raising AttributeError when it is `None`), applies the budget and
use-case filters, returns `[]` when no row survives, and otherwise sorts the
survivors by rating descending (`sort_values`), truncates to `top_k`, and
emits the result records in that order. -/
def recommend_by_specs (r : PhoneRecommender) (budget : Option ℤ)
    (use_case : Option String) (top_k : ℕ) : Except String (List SpecResult) :=
  match r.df with
  | none => Except.error "AttributeError: NoneType object has no attribute"
  | some d =>
    match useCaseFilter use_case (budgetFilter budget d.rows.enum) with
    | Except.error e => Except.error e
    | Except.ok survivors =>
      if survivors.isEmpty then Except.ok []
      else
        Except.ok
          (((pandasSortValuesDesc (fun p => p.rating) survivors).take top_k).map
            fun ip => buildSpecRecord ip.2)

/-! ### Persistence (`save_model` / `load_model`, lines 125–135) -/

/-- The serialized snapshot: `joblib.dump(self, path)` pickles the whole
engine object, so the blob determines the entire instance state (catalog
table, fitted vocabulary/matrix and feature matrix included), and nothing is
recomputed at load time. -/
structure Snapshot where
  engine : PhoneRecommender

/-- `save_model` (lines 125–131). -/
def save_model (r : PhoneRecommender) : Snapshot := ⟨r⟩

/-- `load_model` (lines 133–135): unpickling restores the dumped state. -/
def load_model (s : Snapshot) : PhoneRecommender := s.engine

/-! ### Sample catalogs used to instantiate theorems -/

/-- A concrete catalog row (integer-valued scores so that all facts below are
kernel-decidable). -/
def phoneA : Phone :=
  { model := "A", brand := some "Alpha", price := 10000, processor := some "chipA",
    best_for := some "gaming, multitasking", reason := some "great value",
    gaming := 5, camera := 4, battery_score := 4, performance := 4, rating := 5 }

/-- A second concrete catalog row whose rating ties with `phoneA`. -/
def phoneB : Phone :=
  { model := "B", brand := some "Beta", price := 15000, processor := some "chipB",
    best_for := some "camera", reason := some "great camera",
    gaming := 4, camera := 5, battery_score := 4, performance := 4, rating := 5 }

/-- An engine that has loaded the one-row catalog but has not prepared
features (reachable by `load_data` without `prepare_features`). -/
def eng1 : PhoneRecommender := load_data PhoneRecommender.init [phoneA]

/-- An engine that has loaded the two-row catalog but has not prepared
features. -/
def eng2 : PhoneRecommender := load_data PhoneRecommender.init [phoneA, phoneB]

/-- A fitted engine over the two-row catalog whose text index assigns both
rows the same cosine similarity `1` (as sklearn does when the two combo
texts are identical and the query equals them). -/
def eng2text : PhoneRecommender :=
  { df := some { rows := [phoneA, phoneB],
                 combo_features := some [comboText phoneA, comboText phoneB] },
    tfidf_matrix := some { simFn := fun _ => [1, 1] },
    feature_matrix := none }

/-- A trivial stand-in for the external sklearn fitting pipeline, used to
instantiate theorems that quantify over the fitted vectorizer. -/
def fitConst : List String → TfidfModel := fun _ => { simFn := fun _ => [] }

/-- The engine obtained from `eng1` by running `prepare_features` with the
stand-in fitting pipeline. -/
def eng1p : PhoneRecommender :=
  { df := some { rows := [phoneA], combo_features := some [comboText phoneA] },
    tfidf_matrix := some (fitConst [comboText phoneA]),
    feature_matrix := some (prepareNumeric (numericColumns [phoneA])).transpose }

/-! ### Helper lemmas: folds, truncation, sorting -/

theorem foldl_min_le_init (t : List ℚ) (a : ℚ) : t.foldl min a ≤ a := by
  induction t generalizing a with
  | nil => simp
  | cons c t ih => exact le_trans (ih (min a c)) (min_le_left a c)

theorem foldl_min_le_of_mem {x : ℚ} (t : List ℚ) (a : ℚ) (h : x ∈ t) :
    t.foldl min a ≤ x := by
  induction t generalizing a with
  | nil => cases h
  | cons c t ih =>
    rcases List.mem_cons.mp h with rfl | hx
    · exact le_trans (foldl_min_le_init t (min a x)) (min_le_right a x)
    · exact ih (min a c) hx

theorem le_foldl_max_init (t : List ℚ) (a : ℚ) : a ≤ t.foldl max a := by
  induction t generalizing a with
  | nil => simp
  | cons c t ih => exact le_trans (le_max_left a c) (ih (max a c))

theorem le_foldl_max_of_mem {x : ℚ} (t : List ℚ) (a : ℚ) (h : x ∈ t) :
    x ≤ t.foldl max a := by
  induction t generalizing a with
  | nil => cases h
  | cons c t ih =>
    rcases List.mem_cons.mp h with rfl | hx
    · exact le_trans (le_max_right a x) (le_foldl_max_init t (max a x))
    · exact ih (max a c) hx

theorem colMin_le_of_mem {x : ℚ} {v : List ℚ} (h : x ∈ v) : colMin v ≤ x := by
  cases v with
  | nil => cases h
  | cons a t =>
    rcases List.mem_cons.mp h with rfl | hx
    · exact foldl_min_le_init t x
    · exact foldl_min_le_of_mem t a hx

theorem le_colMax_of_mem {x : ℚ} {v : List ℚ} (h : x ∈ v) : x ≤ colMax v := by
  cases v with
  | nil => cases h
  | cons a t =>
    rcases List.mem_cons.mp h with rfl | hx
    · exact le_foldl_max_init t x
    · exact le_foldl_max_of_mem t a hx

theorem pyInt_le_of_le {q : ℚ} {b : ℤ} (h : q ≤ (b : ℚ)) : pyInt q ≤ b := by
  unfold pyInt
  by_cases h0 : 0 ≤ q
  · simp only [h0, if_true]
    exact_mod_cast le_trans (Int.floor_le q) h
  · simp only [h0, if_false]
    exact Int.ceil_le.mpr h

theorem pandasSortDesc_perm {α : Type} (key : α → ℚ) (rows : List (ℕ × α)) :
    (pandasSortDesc key rows).Perm rows :=
  (List.reverse_perm _).trans (List.perm_insertionSort _ rows)

theorem mem_pandasSortDesc {α : Type} {key : α → ℚ} {rows : List (ℕ × α)}
    {x : ℕ × α} (h : x ∈ pandasSortDesc key rows) : x ∈ rows :=
  (pandasSortDesc_perm key rows).mem_iff.mp h

theorem pandasSortDesc_sorted {α : Type} (key : α → ℚ) (rows : List (ℕ × α)) :
    List.Pairwise (fun x y => pandasLe key y x) (pandasSortDesc key rows) :=
  List.pairwise_reverse.mpr (List.sorted_insertionSort (pandasLe key) rows)

theorem pandasSortDesc_key_antitone {α : Type} (key : α → ℚ) (rows : List (ℕ × α)) :
    List.Pairwise (fun x y => key y.2 ≤ key x.2) (pandasSortDesc key rows) :=
  (pandasSortDesc_sorted key rows).imp fun h => by
    rcases h with h | ⟨h, _⟩
    · exact le_of_lt h
    · exact le_of_eq h

/-- When the original positions are pairwise distinct, the descending sort is
strictly anti-stable: along the output, either the key strictly drops, or the
key ties and the original position strictly drops. -/
theorem pandasSortDesc_strict {α : Type} (key : α → ℚ) (rows : List (ℕ × α))
    (hnd : (rows.map Prod.fst).Nodup) :
    List.Pairwise (fun x y => key y.2 < key x.2 ∨ (key y.2 = key x.2 ∧ y.1 < x.1))
      (pandasSortDesc key rows) := by
  have hnd2 : ((pandasSortDesc key rows).map Prod.fst).Nodup :=
    (((pandasSortDesc_perm key rows).map Prod.fst).nodup_iff).mpr hnd
  have hne : List.Pairwise (fun x y : ℕ × α => x.1 ≠ y.1) (pandasSortDesc key rows) :=
    List.pairwise_map.mp hnd2
  refine ((pandasSortDesc_sorted key rows).and hne).imp ?_
  rintro x y ⟨hle, hne1⟩
  rcases hle with h | ⟨h, hi⟩
  · exact Or.inl h
  · exact Or.inr ⟨h, lt_of_le_of_ne hi (Ne.symm hne1)⟩

theorem pandasSortValuesDesc_perm {α : Type} (key : α → ℚ) (rows : List (ℕ × α)) :
    (pandasSortValuesDesc key rows).Perm rows :=
  List.perm_insertionSort _ rows

theorem mem_pandasSortValuesDesc {α : Type} {key : α → ℚ} {rows : List (ℕ × α)}
    {x : ℕ × α} (h : x ∈ pandasSortValuesDesc key rows) : x ∈ rows :=
  (pandasSortValuesDesc_perm key rows).mem_iff.mp h

theorem pandasSortValuesDesc_sorted {α : Type} (key : α → ℚ) (rows : List (ℕ × α)) :
    List.Pairwise (sortValuesLe key) (pandasSortValuesDesc key rows) :=
  List.sorted_insertionSort (sortValuesLe key) rows

theorem pandasSortValuesDesc_key_antitone {α : Type} (key : α → ℚ)
    (rows : List (ℕ × α)) :
    List.Pairwise (fun x y => key y.2 ≤ key x.2) (pandasSortValuesDesc key rows) :=
  (pandasSortValuesDesc_sorted key rows).imp fun h => by
    rcases h with h | ⟨h, _⟩
    · exact le_of_lt h
    · exact le_of_eq h.symm

/-- When the original positions are pairwise distinct, `sort_values`
descending is strictly stable: along the output, either the key strictly
drops, or the key ties and the original position strictly RISES (ties keep
original catalog order). -/
theorem pandasSortValuesDesc_stable {α : Type} (key : α → ℚ) (rows : List (ℕ × α))
    (hnd : (rows.map Prod.fst).Nodup) :
    List.Pairwise (fun x y => key y.2 < key x.2 ∨ (key y.2 = key x.2 ∧ x.1 < y.1))
      (pandasSortValuesDesc key rows) := by
  have hnd2 : ((pandasSortValuesDesc key rows).map Prod.fst).Nodup :=
    (((pandasSortValuesDesc_perm key rows).map Prod.fst).nodup_iff).mpr hnd
  have hne : List.Pairwise (fun x y : ℕ × α => x.1 ≠ y.1)
      (pandasSortValuesDesc key rows) :=
    List.pairwise_map.mp hnd2
  refine ((pandasSortValuesDesc_sorted key rows).and hne).imp ?_
  rintro x y ⟨hle, hne1⟩
  rcases hle with h | ⟨h, hi⟩
  · exact Or.inl h
  · exact Or.inr ⟨h.symm, lt_of_le_of_ne hi hne1⟩

theorem enum_map_fst_nodup {α : Type} (l : List α) : (l.enum.map Prod.fst).Nodup := by
  rw [List.enum_map_fst]
  exact List.nodup_range l.length

theorem getD_eq_of_mem_enum {α : Type} [Inhabited α] {l : List α} {x : ℕ × α}
    (h : x ∈ l.enum) (d : α) : l.getD x.1 d = x.2 := by
  have h2 := List.mem_enum_iff_getElem?.mp h
  simp [List.getD_eq_getElem?_getD, h2]

theorem snd_mem_of_mem_enum {α : Type} {l : List α} {x : ℕ × α}
    (h : x ∈ l.enum) : x.2 ∈ l :=
  List.getElem?_mem (List.mem_enum_iff_getElem?.mp h)

theorem budgetFilter_sublist (budget : Option ℤ) (rows : List (ℕ × Phone)) :
    (budgetFilter budget rows).Sublist rows := by
  unfold budgetFilter
  match budget with
  | none => exact List.Sublist.refl rows
  | some b =>
    by_cases hb : b = 0
    · simp [hb]
    · simp only [hb, if_false]
      exact List.filter_sublist rows

theorem useCaseFilter_sublist {uc : Option String} {rows rows' : List (ℕ × Phone)}
    (h : useCaseFilter uc rows = Except.ok rows') : rows'.Sublist rows := by
  unfold useCaseFilter at h
  match uc with
  | none => cases h; exact List.Sublist.refl _
  | some u =>
    by_cases h1 : u = ""
    · simp only [h1, if_true] at h; cases h; exact List.Sublist.refl _
    · simp only [h1, if_false] at h
      by_cases h2 : pyLower u = "overall"
      · simp only [h2, if_true] at h; cases h; exact List.Sublist.refl _
      · simp only [h2, if_false] at h
        match hp : parsePattern u with
        | Except.error e => rw [hp] at h; cases h
        | Except.ok pat =>
          rw [hp] at h
          cases h
          exact List.filter_sublist rows

/-! ### Claims -/

/-- C9: `recommend_by_specs` treats a budget of `0` (a falsy value under
Python truthiness) exactly like an absent budget: for every engine, use case
and `top_k`, the call with `budget = 0` returns the same value as the call
with `budget = None`, and no price filtering is applied. -/
theorem C9_budget_zero_is_no_budget (r : PhoneRecommender) (u : Option String)
    (k : ℕ) : recommend_by_specs r (some 0) u k = recommend_by_specs r none u k := by
  unfold recommend_by_specs budgetFilter
  cases r.df <;> simp

/-- C7: persistence round-trips: loading the snapshot written by `save_model`
yields an engine whose `recommend_by_text` and `recommend_by_specs` results
are identical to those of the original engine for every query, budget,
use case and `top_k` (`joblib` pickling captures the entire instance state —
catalog table, fitted vocabulary/matrix, normalization output — and nothing
is recomputed at load time). -/
theorem C7_persistence_round_trip (r : PhoneRecommender) (q : String)
    (b : Option ℤ) (u : Option String) (k : ℕ) :
    recommend_by_text (load_model (save_model r)) q k = recommend_by_text r q k ∧
    recommend_by_specs (load_model (save_model r)) b u k = recommend_by_specs r b u k :=
  ⟨rfl, rfl⟩

/-- C10: the use-case filter interprets the use-case string as a regular
expression, not a literal substring: the pattern `"gam.ng"` retains an item
whose lowercased `best_for` is `"gaming, multitasking"` even though it is not
a literal substring of it, and the pattern `"("` (unbalanced parenthesis)
makes the call fail with an error instead of returning a list. -/
theorem C10_use_case_is_regex :
    recommend_by_specs eng1 none (some "gam.ng") 5 = Except.ok [buildSpecRecord phoneA] ∧
    literalContains (pyLower "gaming, multitasking") "gam.ng" = false ∧
    (recommend_by_specs eng1 none (some "(") 5).isOk = false :=
  ⟨by decide, by decide, by decide⟩

/-- C1 (counterexample): with budget `B = 0` — which satisfies `B ≥ 0` — the
claim fails: on a catalog whose only item costs `10000`, the call
`recommend_by_specs(budget=0)` returns that item, whose price is not `≤ 0`,
because `if budget:` is false for `0` and no price filter runs. -/
theorem C1_counterexample :
    recommend_by_specs eng1 (some 0) none 5 = Except.ok [buildSpecRecord phoneA] ∧
    ¬ ((buildSpecRecord phoneA).price ≤ 0) :=
  ⟨by decide, by decide⟩

/-- C1 (amended): for every nonzero budget `B` (the values that are truthy in
`if budget:`), every result record of `recommend_by_specs(budget=B)` has
price at most `B`; a budget of `0` is treated as if no budget were given. -/
theorem C1_amended (r : PhoneRecommender) (b : ℤ) (u : Option String) (k : ℕ)
    (res : List SpecResult) (hb : b ≠ 0)
    (hres : recommend_by_specs r (some b) u k = Except.ok res) :
    ∀ rec ∈ res, rec.price ≤ b := by
  intro rec hrec
  unfold recommend_by_specs at hres
  match hdf : r.df with
  | none => rw [hdf] at hres; cases hres
  | some d =>
    rw [hdf] at hres
    dsimp only at hres
    match huc : useCaseFilter u (budgetFilter (some b) d.rows.enum) with
    | Except.error e => rw [huc] at hres; cases hres
    | Except.ok survivors =>
      rw [huc] at hres
      cases hemp : survivors.isEmpty with
      | true =>
        simp only [hemp, if_true] at hres
        cases hres
        cases hrec
      | false =>
        simp only [hemp, Bool.false_eq_true, if_false] at hres
        cases hres
        rcases List.mem_map.mp hrec with ⟨ip, hip, rfl⟩
        have h1 : ip ∈ pandasSortValuesDesc (fun p => p.rating) survivors :=
          List.take_subset k _ hip
        have h2 : ip ∈ survivors := mem_pandasSortValuesDesc h1
        have h3 : ip ∈ budgetFilter (some b) d.rows.enum :=
          (useCaseFilter_sublist huc).subset h2
        unfold budgetFilter at h3
        dsimp only at h3
        rw [if_neg hb] at h3
        rcases List.mem_filter.mp h3 with ⟨_, hpred⟩
        exact pyInt_le_of_le (of_decide_eq_true hpred)

/-- C1 (witness): at budget `12000` on the two-row catalog the only returned
record is the `10000`-rupee phone and its price is at most the budget. -/
theorem C1_witness : (buildSpecRecord phoneA).price ≤ 12000 :=
  C1_amended eng2 12000 none 5 [buildSpecRecord phoneA] (by decide) (by decide)
    (buildSpecRecord phoneA) (by decide)

theorem useCaseFilter_eq_filter {u : String} {pat : List Atom}
    (rows : List (ℕ × Phone)) (h1 : u ≠ "") (h2 : pyLower u ≠ "overall")
    (hp : parsePattern u = Except.ok pat) :
    useCaseFilter (some u) rows = Except.ok (rows.filter fun ip =>
      match ip.2.best_for with
      | some s => regexSearch pat (pyLower s)
      | none => false) := by
  unfold useCaseFilter
  dsimp only
  rw [if_neg h1, if_neg h2, hp]

/-- C2 (counterexample): the match does NOT succeed regardless of the letter
case of `U`: the code lowercases `best_for` but not `U`, so on a catalog
whose only item has `best_for = "gaming, multitasking"` the query
`use_case = "Gaming"` returns the empty list, even though that `best_for`
does contain `"Gaming"` as a case-insensitive substring. -/
theorem C2_counterexample :
    recommend_by_specs eng1 none (some "Gaming") 5 = Except.ok [] ∧
    literalContains (pyLower "gaming, multitasking") (pyLower "Gaming") = true :=
  ⟨by decide, by decide⟩

/-- C2 (amended): when `U` is truthy and not `"overall"` case-insensitively,
every result record of `recommend_by_specs(use_case=U)` has a present (non-
missing) `best_for` whose lowercased text matches `U` as a regex pattern —
`U` itself is not case-folded, so a `U` containing capital letters is matched
verbatim against lowercased text; items with a missing `best_for` are
excluded without raising; and when `U` equals `"overall"` case-insensitively
(or is empty, hence falsy) no use-case filtering is applied. -/
theorem C2_amended :
    (∀ (r : PhoneRecommender) (b : Option ℤ) (u : String) (k : ℕ)
       (pat : List Atom) (res : List SpecResult),
       u ≠ "" → pyLower u ≠ "overall" → parsePattern u = Except.ok pat →
       recommend_by_specs r b (some u) k = Except.ok res →
       ∀ rec ∈ res, ∃ s, rec.best_for = some s ∧ regexSearch pat (pyLower s) = true) ∧
    (∀ (r : PhoneRecommender) (b : Option ℤ) (u : String) (k : ℕ),
       pyLower u = "overall" →
       recommend_by_specs r b (some u) k = recommend_by_specs r b none k) := by
  constructor
  · intro r b u k pat res h1 h2 hp hres rec hrec
    unfold recommend_by_specs at hres
    match hdf : r.df with
    | none => rw [hdf] at hres; cases hres
    | some d =>
      rw [hdf] at hres
      dsimp only at hres
      rw [useCaseFilter_eq_filter (budgetFilter b d.rows.enum) h1 h2 hp] at hres
      set survivors := (budgetFilter b d.rows.enum).filter (fun ip =>
        match ip.2.best_for with
        | some s => regexSearch pat (pyLower s)
        | none => false) with hsurv
      cases hemp : survivors.isEmpty with
      | true =>
        simp only [hemp, if_true] at hres
        cases hres
        cases hrec
      | false =>
        simp only [hemp, Bool.false_eq_true, if_false] at hres
        cases hres
        rcases List.mem_map.mp hrec with ⟨ip, hip, rfl⟩
        have h3 : ip ∈ survivors :=
          mem_pandasSortValuesDesc (List.take_subset k _ hip)
        rcases List.mem_filter.mp h3 with ⟨_, hpred⟩
        match hbf : ip.2.best_for with
        | none => rw [hbf] at hpred; cases hpred
        | some s =>
          rw [hbf] at hpred
          exact ⟨s, hbf, hpred⟩
  · intro r b u k h2
    unfold recommend_by_specs
    match r.df with
    | none => rfl
    | some d =>
      have huc : useCaseFilter (some u) (budgetFilter b d.rows.enum) =
          useCaseFilter none (budgetFilter b d.rows.enum) := by
        unfold useCaseFilter
        dsimp only
        by_cases h1 : u = ""
        · rw [if_pos h1]
        · rw [if_neg h1, if_pos h2]
      dsimp only
      rw [huc]

/-- C2 (witness): a lowercase query `"gaming"` (a metacharacter-free regex)
does retain the item whose `best_for` is `"gaming, multitasking"`, and a
query equal to `"Overall"` up to case applies no filtering. -/
theorem C2_witness :
    (∃ s, (buildSpecRecord phoneA).best_for = some s ∧
      regexSearch [Atom.lit 'g', Atom.lit 'a', Atom.lit 'm', Atom.lit 'i',
        Atom.lit 'n', Atom.lit 'g'] (pyLower s) = true) ∧
    recommend_by_specs eng1 none (some "Overall") 5 = recommend_by_specs eng1 none none 5 :=
  ⟨C2_amended.1 eng1 none "gaming" 5
      [Atom.lit 'g', Atom.lit 'a', Atom.lit 'm', Atom.lit 'i', Atom.lit 'n', Atom.lit 'g']
      [buildSpecRecord phoneA] (by decide) (by decide) (by decide) (by decide)
      (buildSpecRecord phoneA) (by decide),
    C2_amended.2 eng1 none "Overall" 5 (by decide)⟩

/-- C4: feature normalization is well-behaved: non-numeric/missing cells are
first coerced to the default `4.0`; a column whose min and max differ is
mapped by the affine scaling `(x - min) / (max - min)` into `[0, 1]`
elementwise; a constant column (`max - min` not positive) is left at its raw
values, so no division by zero occurs; and `prepare_features` stores exactly
these per-column results (for the six numeric fields, over the full catalog)
as the feature matrix. -/
theorem C4_normalization_bounds :
    (∀ (col : List (Option ℚ)), toNumericFill col = col.map fun c => c.getD 4) ∧
    (∀ (v : List ℚ), 0 < colMax v - colMin v → ∀ x ∈ normalizeCol v, 0 ≤ x ∧ x ≤ 1) ∧
    (∀ (v : List ℚ), ¬ 0 < colMax v - colMin v → normalizeCol v = v) ∧
    (∀ (fit : List String → TfidfModel) (r r' : PhoneRecommender) (d : DataFrame),
       r.df = some d → prepare_features fit r = Except.ok r' →
       r'.feature_matrix = some (prepareNumeric (numericColumns d.rows)).transpose ∧
       prepareNumeric (numericColumns d.rows) =
         (numericColumns d.rows).map fun c => normalizeCol (toNumericFill c)) := by
  refine ⟨fun col => rfl, ?_, ?_, ?_⟩
  · intro v hpos x hx
    unfold normalizeCol at hx
    rw [if_pos hpos] at hx
    rcases List.mem_map.mp hx with ⟨y, hy, rfl⟩
    constructor
    · exact div_nonneg (sub_nonneg.mpr (colMin_le_of_mem hy)) (le_of_lt hpos)
    · exact (div_le_one hpos).mpr (sub_le_sub_right (le_colMax_of_mem hy) _)
  · intro v hpos
    unfold normalizeCol
    rw [if_neg hpos]
  · intro fit r r' d hdf h
    unfold prepare_features at h
    rw [hdf] at h
    cases h
    exact ⟨rfl, rfl⟩

/-- C4 (witness): on the raw column `[some 0, some 2, none]` the missing cell
is coerced to `4`, the scaled middle value `(2 - 0) / (4 - 0)` lies in
`[0, 1]`; the constant column `[3, 3]` passes through unnormalized; and the
prepared engine `eng1p` stores the per-column normalization results. -/
theorem C4_witness :
    toNumericFill [some 0, some 2, none] = [0, 2, 4] ∧
    (0 ≤ ((2 : ℚ) - colMin [(0 : ℚ), 2, 4]) / (colMax [(0 : ℚ), 2, 4] - colMin [(0 : ℚ), 2, 4]) ∧
      ((2 : ℚ) - colMin [(0 : ℚ), 2, 4]) / (colMax [(0 : ℚ), 2, 4] - colMin [(0 : ℚ), 2, 4]) ≤ 1) ∧
    normalizeCol [(3 : ℚ), 3] = [3, 3] ∧
    eng1p.feature_matrix = some (prepareNumeric (numericColumns [phoneA])).transpose := by
  refine ⟨by decide, ?_, ?_, ?_⟩
  · have hpos : 0 < colMax [(0 : ℚ), 2, 4] - colMin [(0 : ℚ), 2, 4] := by
      norm_num [colMax, colMin, List.foldl]
    refine C4_normalization_bounds.2.1 [(0 : ℚ), 2, 4] hpos _ ?_
    unfold normalizeCol
    rw [if_pos hpos]
    exact List.mem_map_of_mem _ (by decide)
  · exact C4_normalization_bounds.2.2.1 [(3 : ℚ), 3] (by norm_num [colMax, colMin, List.foldl])
  · exact (C4_normalization_bounds.2.2.2 fitConst eng1 eng1p
      { rows := [phoneA], combo_features := none } rfl rfl).1

theorem argsortDesc_antitone (sims : List ℚ) :
    List.Pairwise (fun i j => sims.getD j 0 ≤ sims.getD i 0) (argsortDesc sims) := by
  unfold argsortDesc
  refine List.pairwise_map.mpr ?_
  refine List.Pairwise.imp_of_mem ?_ (pandasSortDesc_key_antitone (fun v => v) sims.enum)
  intro x y hx hy hle
  have hx2 := getD_eq_of_mem_enum (mem_pandasSortDesc hx) (0 : ℚ)
  have hy2 := getD_eq_of_mem_enum (mem_pandasSortDesc hy) (0 : ℚ)
  rw [hx2, hy2]
  exact hle

/-- C5: result shape of both query paths, for every engine, query and
`top_k` (a natural number, per the interface contract): `recommend_by_text`
returns at most `top_k` records, with `similarity_score` non-increasing along
the list and strictly positive in every record; `recommend_by_specs` returns
at most `top_k` records with `rating` non-increasing along the list. -/
theorem C5_result_shape :
    (∀ (r : PhoneRecommender) (q : String) (k : ℕ) (res : List TextResult),
       recommend_by_text r q k = Except.ok res →
       res.length ≤ k ∧
       List.Pairwise (fun a b => b.similarity_score ≤ a.similarity_score) res ∧
       ∀ rec ∈ res, 0 < rec.similarity_score) ∧
    (∀ (r : PhoneRecommender) (b : Option ℤ) (u : Option String) (k : ℕ)
       (res : List SpecResult),
       recommend_by_specs r b u k = Except.ok res →
       res.length ≤ k ∧ List.Pairwise (fun a b => b.rating ≤ a.rating) res) := by
  constructor
  · intro r q k res h
    unfold recommend_by_text at h
    match htf : r.tfidf_matrix with
    | none => rw [htf] at h; cases h
    | some m =>
      rw [htf] at h
      dsimp only at h
      match hdf : r.df with
      | none => rw [hdf] at h; cases h
      | some d =>
        rw [hdf] at h
        dsimp only at h
        cases h
        refine ⟨?_, ?_, ?_⟩
        · rw [List.length_map]
          refine le_trans (List.length_filter_le _ _) ?_
          rw [List.length_take]
          exact min_le_left _ _
        · refine List.pairwise_map.mpr ?_
          refine List.Pairwise.sublist ?_ (argsortDesc_antitone (m.simFn q))
          exact (List.filter_sublist _).trans (List.take_sublist k _)
        · intro rec hrec
          rcases List.mem_map.mp hrec with ⟨i, hi, rfl⟩
          rcases List.mem_filter.mp hi with ⟨_, hp⟩
          exact of_decide_eq_true hp
  · intro r b u k res h
    unfold recommend_by_specs at h
    match hdf : r.df with
    | none => rw [hdf] at h; cases h
    | some d =>
      rw [hdf] at h
      dsimp only at h
      match huc : useCaseFilter u (budgetFilter b d.rows.enum) with
      | Except.error e => rw [huc] at h; cases h
      | Except.ok survivors =>
        rw [huc] at h
        cases hemp : survivors.isEmpty with
        | true =>
          simp only [hemp, if_true] at h
          cases h
          exact ⟨by simp, List.Pairwise.nil⟩
        | false =>
          simp only [hemp, Bool.false_eq_true, if_false] at h
          cases h
          refine ⟨?_, ?_⟩
          · rw [List.length_map, List.length_take]
            exact min_le_left _ _
          · refine List.pairwise_map.mpr ?_
            exact List.Pairwise.sublist (List.take_sublist k _)
              (pandasSortValuesDesc_key_antitone (fun p => p.rating) survivors)

/-- C5 (witness): on the two-row catalogs, both paths return two records
(within `top_k = 5`) and the text path's top record has positive
similarity. -/
theorem C5_witness :
    [buildTextRecord phoneB 1, buildTextRecord phoneA 1].length ≤ 5 ∧
    0 < (buildTextRecord phoneB 1).similarity_score ∧
    [buildSpecRecord phoneB, buildSpecRecord phoneA].length ≤ 5 := by
  have h1 := C5_result_shape.1 eng2text "q" 5
    [buildTextRecord phoneB 1, buildTextRecord phoneA 1] (by decide)
  have h2 := C5_result_shape.2 eng2 none none 5
    [buildSpecRecord phoneA, buildSpecRecord phoneB] (by decide)
  exact ⟨h1.1, h1.2.2 _ (by decide), h2.1⟩

/-- C6 (counterexample): `recommend_by_specs` does NOT fail before
features/index are prepared: on an engine that has loaded a catalog but
never ran `prepare_features` (its TF-IDF matrix is still `None`), the specs
path succeeds and returns results, while only the text path raises the
"not trained" error. -/
theorem C6_counterexample :
    eng1.tfidf_matrix = none ∧
    recommend_by_specs eng1 none none 5 = Except.ok [buildSpecRecord phoneA] ∧
    recommend_by_text eng1 "gaming" 5 =
      Except.error "Model not trained! Call prepare_features() first" :=
  ⟨rfl, by decide, rfl⟩

/-- C6 (amended): `recommend_by_text` raises the "not trained" error whenever
the TF-IDF matrix has not been fit; `recommend_by_specs` does not require the
features/index at all — it succeeds whenever a catalog is loaded (its only
"not ready" failure mode is a missing catalog); and once `prepare_features`
has run, neither path fails for a not-ready reason. -/
theorem C6_amended :
    (∀ (r : PhoneRecommender) (q : String) (k : ℕ), r.tfidf_matrix = none →
       recommend_by_text r q k =
         Except.error "Model not trained! Call prepare_features() first") ∧
    (∀ (r : PhoneRecommender) (b : Option ℤ) (k : ℕ) (d : DataFrame),
       r.df = some d → (recommend_by_specs r b none k).isOk = true) ∧
    (∀ (fit : List String → TfidfModel) (r r' : PhoneRecommender) (q : String)
       (b : Option ℤ) (k : ℕ),
       prepare_features fit r = Except.ok r' →
       (recommend_by_text r' q k).isOk = true ∧
       (recommend_by_specs r' b none k).isOk = true) := by
  have hspec : ∀ (r : PhoneRecommender) (b : Option ℤ) (k : ℕ) (d : DataFrame),
      r.df = some d → (recommend_by_specs r b none k).isOk = true := by
    intro r b k d hdf
    unfold recommend_by_specs
    rw [hdf]
    dsimp only
    have huc : useCaseFilter none (budgetFilter b d.rows.enum) =
        Except.ok (budgetFilter b d.rows.enum) := rfl
    rw [huc]
    cases hemp : (budgetFilter b d.rows.enum).isEmpty with
    | true => simp only [hemp, if_true]; rfl
    | false => simp only [hemp, Bool.false_eq_true, if_false]; rfl
  refine ⟨?_, hspec, ?_⟩
  · intro r q k htf
    unfold recommend_by_text
    rw [htf]
  · intro fit r r' q b k h
    unfold prepare_features at h
    match hdf : r.df with
    | none => rw [hdf] at h; cases h
    | some d =>
      rw [hdf] at h
      cases h
      constructor
      · rfl
      · exact hspec _ b k _ rfl

/-- C6 (witness): the amended behavior at concrete engines: the unfit engine
errors on the text path but answers on the specs path, and the prepared
engine `eng1p` answers on both paths. -/
theorem C6_witness :
    recommend_by_text eng1 "q" 5 =
      Except.error "Model not trained! Call prepare_features() first" ∧
    (recommend_by_specs eng1 none none 5).isOk = true ∧
    (recommend_by_text eng1p "q" 5).isOk = true ∧
    (recommend_by_specs eng1p none none 5).isOk = true := by
  refine ⟨C6_amended.1 eng1 "q" 5 rfl,
          C6_amended.2.1 eng1 none 5 { rows := [phoneA], combo_features := none } rfl,
          ?_, ?_⟩
  · exact (C6_amended.2.2 fitConst eng1 eng1p "q" none 5 rfl).1
  · exact (C6_amended.2.2 fitConst eng1 eng1p "q" none 5 rfl).2

/-- C8 (counterexample): `prepare_features` does have an observable side
effect on the catalog table: it assigns a new `combo_features` column on
`self.df`, so the DataFrame after the call differs from the DataFrame before
it. -/
theorem C8_counterexample :
    (prepare_features fitConst eng1).map PhoneRecommender.df ≠ Except.ok eng1.df := by
  decide

/-- C8 (amended): `prepare_features` preserves the set of catalog rows and
every original column value — its only effect on the catalog table is adding
the derived `combo_features` column (plus installing the fitted index and
feature matrix on the engine). -/
theorem C8_amended (fit : List String → TfidfModel) (r r' : PhoneRecommender)
    (d : DataFrame) (hdf : r.df = some d)
    (h : prepare_features fit r = Except.ok r') :
    r'.df = some { rows := d.rows, combo_features := some (d.rows.map comboText) } := by
  unfold prepare_features at h
  rw [hdf] at h
  cases h
  rfl

/-- C8 (witness): the prepared engine keeps the original row `phoneA`
unchanged and gains only the combo column. -/
theorem C8_witness :
    eng1p.df = some { rows := [phoneA], combo_features := some ([phoneA].map comboText) } :=
  C8_amended fitConst eng1 eng1p { rows := [phoneA], combo_features := none } rfl rfl

/-- C3 (counterexample): in `recommend_by_text`, ties are NOT broken by
original catalog order: on the catalog `[phoneA, phoneB]` with equal
similarity scores of `1`, the text path returns `phoneB` before `phoneA` —
the reverse of catalog order — because `np.argsort(...)[::-1]` reverses a
stable ascending argsort wholesale.  (The specs path, by contrast, does keep
catalog order on its equal-rating tie, as the last conjunct shows.) -/
theorem C3_counterexample :
    phoneA.rating = phoneB.rating ∧
    phoneA.model ≠ phoneB.model ∧
    recommend_by_text eng2text "q" 5 =
      Except.ok [buildTextRecord phoneB 1, buildTextRecord phoneA 1] ∧
    recommend_by_specs eng2 none none 5 =
      Except.ok [buildSpecRecord phoneA, buildSpecRecord phoneB] :=
  ⟨by decide, by decide, by decide, by decide⟩

/-- C3 (amended): the two query paths break ranking ties differently.
`recommend_by_specs` does break ties by original catalog order, as claimed:
pandas `sort_values(ascending=False)` reverses both its inputs and its
output around a stable ascending argsort, so along its ranking any two
entries with equal rating appear with strictly increasing original
positions.  `recommend_by_text`, however, breaks ties by REVERSE catalog
order: `np.argsort(...)[::-1]` reverses a stable ascending argsort
wholesale, so entries with equal similarity appear with strictly decreasing
original positions.  Each path's result list enumerates exactly its order
(truncated to `top_k`, and for the text path filtered to positive
similarity). -/
theorem C3_amended :
    (∀ (r : PhoneRecommender) (d : DataFrame) (m : TfidfModel) (q : String) (k : ℕ),
       r.df = some d → r.tfidf_matrix = some m →
       List.Pairwise (fun x y => y.2 < x.2 ∨ (y.2 = x.2 ∧ y.1 < x.1))
         (pandasSortDesc (fun v => v) (m.simFn q).enum) ∧
       recommend_by_text r q k = Except.ok
         ((((argsortDesc (m.simFn q)).take k).filter fun i =>
             0 < (m.simFn q).getD i 0).map fun i =>
           buildTextRecord (d.rows.getD i default) ((m.simFn q).getD i 0))) ∧
    (∀ (r : PhoneRecommender) (d : DataFrame) (b : Option ℤ) (u : Option String)
       (k : ℕ) (survivors : List (ℕ × Phone)),
       r.df = some d →
       useCaseFilter u (budgetFilter b d.rows.enum) = Except.ok survivors →
       List.Pairwise
         (fun x y => y.2.rating < x.2.rating ∨ (y.2.rating = x.2.rating ∧ x.1 < y.1))
         (pandasSortValuesDesc (fun p => p.rating) survivors) ∧
       recommend_by_specs r b u k =
         (if survivors.isEmpty then Except.ok []
          else Except.ok (((pandasSortValuesDesc (fun p => p.rating) survivors).take k).map
            fun ip => buildSpecRecord ip.2))) := by
  constructor
  · intro r d m q k hdf htf
    constructor
    · exact pandasSortDesc_strict (fun v => v) (m.simFn q).enum
        (enum_map_fst_nodup (m.simFn q))
    · unfold recommend_by_text
      rw [htf]
      dsimp only
      rw [hdf]
  · intro r d b u k survivors hdf huc
    constructor
    · have h1 : survivors.Sublist d.rows.enum :=
        (useCaseFilter_sublist huc).trans (budgetFilter_sublist b d.rows.enum)
      exact pandasSortValuesDesc_stable (fun p => p.rating) survivors
        (List.Nodup.sublist (h1.map Prod.fst) (enum_map_fst_nodup d.rows))
    · unfold recommend_by_specs
      rw [hdf]
      dsimp only
      rw [huc]

/-- C3 (witness): the tie orders concretely: on two equal similarity scores
`[1, 1]` the text-path order has strictly decreasing positions, and on the
two equal-rated catalog rows the `sort_values` order has strictly increasing
positions (catalog order preserved). -/
theorem C3_witness :
    List.Pairwise (fun x y => y.2 < x.2 ∨ (y.2 = x.2 ∧ y.1 < x.1))
      (pandasSortDesc (fun v => v) ([(1 : ℚ), 1]).enum) ∧
    List.Pairwise
      (fun x y => y.2.rating < x.2.rating ∨ (y.2.rating = x.2.rating ∧ x.1 < y.1))
      (pandasSortValuesDesc (fun p => p.rating) ([phoneA, phoneB].enum)) :=
  ⟨(C3_amended.1 eng2text
      { rows := [phoneA, phoneB],
        combo_features := some [comboText phoneA, comboText phoneB] }
      { simFn := fun _ => [1, 1] } "q" 5 rfl rfl).1,
   (C3_amended.2 eng2 { rows := [phoneA, phoneB], combo_features := none }
      none none 5 ([phoneA, phoneB].enum) rfl rfl).1⟩
